import Mathlib

/-!
Shallow embedding of the `clarg` command-line argument parser
(`src/lib.rs`): argument specifications (`Arg`), constraint groups
(`ArgGroup`), the scanning/validation engine (`ArgParser.parse`) and the
result mapping (`ArgMap`).

Process-exit side effects are reified in the outcome types:
`helpExit` stands for printing the help page and calling `exit(0)`;
`errorExit msg` stands for printing the diagnostic `msg` (plus the usage
line) to stderr and calling `exit(1)`.  The `HashMap<String, String>`
argument map is embedded as an association list whose `mapInsert`
overwrites any earlier binding for the same key, matching
`HashMap::insert` observationally.
-/

namespace Clarg

/-- `ArgKind` from lib.rs: the type of value an argument carries. -/
inductive ArgKind where
  | string
  | integer
  | float
  | boolean
deriving DecidableEq, Repr

/-- `Arg` from lib.rs: one declared argument requirement.  `scanned` is the
mutable observation flag set during `parse`. -/
structure Arg where
  long_name : String := ""
  short_name : Option Char := none
  kind : ArgKind := ArgKind.string
  required : Bool := false
  description : String := ""
  scanned : Bool := false
deriving DecidableEq, Repr

/-- `Arg::new` (`Arg::default`). -/
def Arg.new : Arg := {}

/-- `Arg::boolean`: boolean flag, always optional. -/
def Arg.boolean (name : String) (short_name : Option Char) (desc : String) : Arg :=
  { long_name := name, kind := ArgKind.boolean, required := false,
    description := desc, short_name := short_name }

/-- `Arg::string`. -/
def Arg.string (long_name : String) (short_name : Option Char) (required : Bool)
    (desc : String) : Arg :=
  { long_name := long_name, short_name := short_name, kind := ArgKind.string,
    description := desc, required := required }

/-- `Arg::integer`. -/
def Arg.integer (long_name : String) (short_name : Option Char) (required : Bool)
    (desc : String) : Arg :=
  { long_name := long_name, short_name := short_name, kind := ArgKind.integer,
    description := desc, required := required }

/-- `Arg::float` (its `required` parameter is called `option` in the source). -/
def Arg.float (long_name : String) (short_name : Option Char) (option : Bool)
    (desc : String) : Arg :=
  { long_name := long_name, short_name := short_name, kind := ArgKind.float,
    description := desc, required := option }

/-- Lookup in the association-list embedding of `HashMap<String, String>`. -/
def mapGet (m : List (String × String)) (k : String) : Option String :=
  (m.find? (fun p => p.1 == k)).map Prod.snd

/-- `HashMap::insert`: any earlier binding for `k` is replaced by `v`. -/
def mapInsert (m : List (String × String)) (k v : String) : List (String × String) :=
  m.filter (fun p => p.1 != k) ++ [(k, v)]

/-- `ArgMap` from lib.rs: wrapper around the parsed-argument map. -/
structure ArgMap where
  inner : List (String × String)
deriving DecidableEq, Repr

/-- `ArgMap::get_raw`. -/
def ArgMap.get_raw (m : ArgMap) (name : String) : Option String :=
  mapGet m.inner name

/-- `ArgMap::has_arg` (`contains_key`). -/
def ArgMap.has_arg (m : ArgMap) (name : String) : Bool :=
  (mapGet m.inner name).isSome

/-- Value of a nonempty all-ASCII-digit character list, as
`i32::from_str` reads the digits; `none` when the list is empty or holds a
non-digit. -/
def digitsVal? (cs : List Char) : Option Nat :=
  if cs ≠ [] ∧ cs.all Char.isDigit then
    some (cs.foldl (fun n c => n * 10 + (c.toNat - 48)) 0)
  else none

/-- Rust `i32::from_str` (`value.parse::<i32>()`): optional sign, one or
more ASCII digits, result within the signed 32-bit range. -/
def parseI32 (s : String) : Option Int :=
  match s.toList with
  | '+' :: rest => (digitsVal? rest).bind fun n =>
      if n ≤ 2 ^ 31 - 1 then some (n : Int) else none
  | '-' :: rest => (digitsVal? rest).bind fun n =>
      if n ≤ 2 ^ 31 then some (-(n : Int)) else none
  | cs => (digitsVal? cs).bind fun n =>
      if n ≤ 2 ^ 31 - 1 then some (n : Int) else none

/-- Split a character list at the first `e`/`E`, keeping what follows. -/
def splitAtExp : List Char → List Char × Option (List Char)
  | [] => ([], none)
  | c :: rest =>
    if c = 'e' ∨ c = 'E' then ([], some rest)
    else
      let p := splitAtExp rest
      (c :: p.1, p.2)

/-- Mantissa of Rust's float grammar: `Digit+ ('.' Digit*)? | '.' Digit+`. -/
def mantissaOk (cs : List Char) : Bool :=
  let intPart := cs.takeWhile Char.isDigit
  let rest := cs.dropWhile Char.isDigit
  if intPart.isEmpty then
    match rest with
    | '.' :: frac => !frac.isEmpty && frac.all Char.isDigit
    | _ => false
  else
    match rest with
    | [] => true
    | '.' :: frac => frac.all Char.isDigit
    | _ => false

/-- Exponent of Rust's float grammar: optional sign then `Digit+`. -/
def expOk (cs : List Char) : Bool :=
  let body := match cs with
    | '+' :: r => r
    | '-' :: r => r
    | r => r
  !body.isEmpty && body.all Char.isDigit

/-- Whether `value.parse::<f32>()` succeeds.  Rust's `f32::from_str`
accepts exactly the grammar `Sign? (inf | infinity | nan | Number)` with
`Number ::= Digit+ ('.' Digit*)? Exp? | '.' Digit+ Exp?` (special names
compared ASCII-case-insensitively); within the grammar it never fails, so
acceptance is purely syntactic. -/
def parseF32Ok (s : String) : Bool :=
  let cs := match s.toList with
    | '+' :: r => r
    | '-' :: r => r
    | r => r
  let low := cs.map Char.toLower
  if low = "inf".toList ∨ low = "infinity".toList ∨ low = "nan".toList then true
  else
    let p := splitAtExp cs
    mantissaOk p.1 && (match p.2 with
      | none => true
      | some ec => expOk ec)

/-- `GroupKind` from lib.rs. -/
inductive GroupKind where
  | exclusive
  | onlyWhen
deriving DecidableEq, Repr

/-- `ArgGroup` from lib.rs. -/
structure ArgGroup where
  name : String
  kind : GroupKind
  required : Bool
  args : List String
  parents : List String
deriving DecidableEq, Repr

/-- `ArgGroup::new`. -/
def ArgGroup.new (name : String) (kind : GroupKind) (args1 args2 : List String)
    (required : Bool) : ArgGroup :=
  { name := name, kind := kind, args := args1, parents := args2, required := required }

/-- `ArgGroup::contains`. -/
def ArgGroup.contains (g : ArgGroup) (name : String) : Bool :=
  g.args.contains name

/-- `ArgGroup::allow_when`: conditional (`OnlyWhen`) group. -/
def ArgGroup.allow_when (name : String) (required : Bool) (args parents : List String) :
    ArgGroup :=
  ArgGroup.new name GroupKind.onlyWhen args parents required

/-- `ArgGroup::exclusive`. -/
def ArgGroup.exclusive (name : String) (required : Bool) (args : List String) : ArgGroup :=
  ArgGroup.new name GroupKind.exclusive args [] required

/-- `ArgParser` from lib.rs.  The source's `ArgParser::new` derives
`executable` from `env::args()` index 0 (stripped of any path prefix);
here both display strings are explicit constructor data, since neither
affects parsing outcomes. -/
structure ArgParser where
  executable : String
  description : String
  args : List Arg
  groups : List ArgGroup
deriving DecidableEq, Repr

/-- `ArgParser::new` with the executable name passed explicitly. -/
def ArgParser.new (executable description : String) : ArgParser :=
  { executable := executable, description := description, args := [], groups := [] }

/-- `ArgParser::add_group`. -/
def ArgParser.add_group (p : ArgParser) (g : ArgGroup) : ArgParser :=
  { p with groups := p.groups ++ [g] }

/-- `ArgParser::arg`: append the spec unless it is named `"help"` or
aliased `'h'` (`if arg.long_name != "help" && arg.short_name != Some('h')`). -/
def ArgParser.arg (p : ArgParser) (a : Arg) : ArgParser :=
  if a.long_name ≠ "help" ∧ a.short_name ≠ some 'h' then
    { p with args := p.args ++ [a] }
  else p

/-- Registering a whole list of specs by chained `ArgParser::arg` calls. -/
def registerAll (p : ArgParser) (specs : List Arg) : ArgParser :=
  specs.foldl ArgParser.arg p

/-- Rust `arg.starts_with("-")` / `value.starts_with('-')`: the first
character is a dash. -/
def startsWithDash (s : String) : Bool :=
  s.toList.head? == some '-'

/-- `arg.chars().skip_while(|c| *c == '-').collect()`: the candidate
option name with all leading dashes stripped. -/
def stripDashes (s : String) : String :=
  ⟨s.toList.dropWhile (fun c => c == '-')⟩

/-- Rust `str::len`: UTF-8 byte length (used in the alias test
`arg_name.len() == 1`). -/
def byteLen (s : String) : Nat :=
  s.toList.foldl (fun n c => n + c.utf8Size) 0

/-- The matching predicate of the scan's `find`:
`arg.long_name == arg_name || (arg_name.len() == 1 && arg_name.chars().nth(0) == arg.short_name)`. -/
def matchesTok (name : String) (a : Arg) : Bool :=
  a.long_name == name || (byteLen name == 1 && name.toList.head? == a.short_name)

/-- `self.args.iter_mut().find(...)`: the first spec matching the stripped
token name. -/
def findArg? (args : List Arg) (name : String) : Option Arg :=
  args.find? (matchesTok name)

/-- Setting `inner.scanned = true` on the spec the scan's `find` located:
the first spec matching `name` is marked observed. -/
def markScanned : List Arg → String → List Arg
  | [], _ => []
  | a :: rest, name =>
    if matchesTok name a then { a with scanned := true } :: rest
    else a :: markScanned rest name

/-- Outcome of the token-scanning loop of `ArgParser::parse`. -/
inductive ScanOutcome where
  | helpExit
  | errorExit (msg : String)
  | done (args : List Arg) (map : List (String × String))
deriving DecidableEq, Repr

/-- The `while let Some(arg) = arguments.next()` loop of
`ArgParser::parse`, token by token.  Value tokens for String / Integer /
Float options are consumed with an inner `arguments.next()`, so they are
never examined by the loop head (in particular never by the help check). -/
def scanTokens : List Arg → List (String × String) → List String → ScanOutcome
  | args, m, [] => ScanOutcome.done args m
  | args, m, tok :: rest =>
    if tok == "--help" || tok == "-h" then ScanOutcome.helpExit
    else if startsWithDash tok then
      let arg_name := stripDashes tok
      match findArg? args arg_name with
      | some inner =>
        match inner.kind with
        | ArgKind.string =>
          match rest with
          | value :: rest2 =>
            if startsWithDash value then
              ScanOutcome.errorExit
                ("Unexpected value `" ++ value ++ "` for argument: --" ++ arg_name)
            else
              scanTokens (markScanned args arg_name)
                (mapInsert m inner.long_name value) rest2
          | [] => ScanOutcome.errorExit ("Missing value for argument: --" ++ arg_name)
        | ArgKind.integer =>
          match rest with
          | value :: rest2 =>
            if (parseI32 value).isSome then
              scanTokens (markScanned args arg_name)
                (mapInsert m inner.long_name value) rest2
            else
              ScanOutcome.errorExit ("Cannot convert `" ++ value ++ "` into integer.")
          | [] => ScanOutcome.errorExit ("Missing value for argument: --" ++ arg_name)
        | ArgKind.float =>
          match rest with
          | value :: rest2 =>
            if parseF32Ok value then
              scanTokens (markScanned args arg_name)
                (mapInsert m inner.long_name value) rest2
            else
              ScanOutcome.errorExit
                ("Cannot convert `" ++ value ++ "` into floating point number.")
          | [] => ScanOutcome.errorExit ("Missing value for argument: --" ++ arg_name)
        | ArgKind.boolean =>
          scanTokens (markScanned args arg_name)
            (mapInsert m inner.long_name "true") rest
      | none => ScanOutcome.errorExit ("Unrecognized option `" ++ tok ++ "` passed.")
    else ScanOutcome.errorExit ("Unexpected argument option `" ++ tok ++ "` passed.")

/-- `group.args().join(", ")`. -/
def joinComma (l : List String) : String :=
  String.intercalate ", " l

/-- The observed-member counting fold shared by all group checks:
`self.args.iter().fold(0, ...)` counting specs whose `long_name` is in
`names` and whose `scanned` flag is set. -/
def useCount (args : List Arg) (names : List String) : Nat :=
  args.foldl (fun sum item =>
    if names.contains item.long_name && item.scanned then sum + 1 else sum) 0

/-- One group's post-scan check, `some msg` being the diagnostic that
makes `parse` print `msg` and terminate.  Mirrors the
`if group.is_required() { match group.kind() ... } else { ... }` block of
`ArgParser::parse`. -/
def checkGroup (args : List Arg) (g : ArgGroup) : Option String :=
  if g.required then
    match g.kind with
    | GroupKind.exclusive =>
      let use_count := useCount args g.args
      if use_count > 1 then
        some ("Misuse of exclusive argument(s). Only one of the following must be used: ["
          ++ joinComma g.args ++ "]")
      else if use_count == 0 then
        some ("Missing required exclusive argument(s). One of the following must be used: ["
          ++ joinComma g.args ++ "]")
      else none
    | GroupKind.onlyWhen =>
      let use_count := useCount args g.args
      let parent_count := useCount args g.parents
      if use_count == 0 then
        some ("Missing matching argument(s). One of the following must be used: ["
          ++ joinComma g.args ++ "]")
      else if parent_count == 0 then
        some ("Missing matching parent argument. Options like [" ++ joinComma g.args
          ++ "] need to be used with: [" ++ joinComma g.parents ++ "].")
      else none
  else
    match g.kind with
    | GroupKind.exclusive =>
      if useCount args g.args > 1 then
        some ("Cannot use the following arguments together: [" ++ joinComma g.args ++ "]")
      else none
    | GroupKind.onlyWhen =>
      let use_count := useCount args g.args
      let parents_in_use := useCount args g.parents
      if use_count > 0 && parents_in_use == 0 then
        some ("Missing arguments. Options like [" ++ joinComma g.args
          ++ "] need to be used with: [" ++ joinComma g.parents ++ "].")
      else none

/-- The `for group in &self.groups` loop: the first failing group check's
diagnostic, if any (each failure calls `exit(1)` at once, so later groups
are never examined). -/
def firstGroupError (args : List Arg) : List ArgGroup → Option String
  | [] => none
  | g :: gs =>
    match checkGroup args g with
    | some msg => some msg
    | none => firstGroupError args gs

/-- The trailing `self.args.iter().for_each(...)` required check: the
first spec with `required && !scanned` yields its diagnostic. -/
def firstMissingRequired (args : List Arg) : Option String :=
  (args.find? (fun a => a.required && !a.scanned)).map
    (fun a => "Missing required argument: `" ++ a.long_name ++ "`")

/-- The whole post-scan validation phase: group checks in declaration
order, then required-spec checks in declaration order; the first failure
(if any) is the run's single diagnostic. -/
def postScan (args : List Arg) (groups : List ArgGroup) : Option String :=
  match firstGroupError args groups with
  | some msg => some msg
  | none => firstMissingRequired args

/-- Outcome of `ArgParser::parse`: help page + `exit(0)`, diagnostic +
`exit(1)`, or the returned `ArgMap`. -/
inductive ParseOutcome where
  | helpExit
  | errorExit (msg : String)
  | ok (result : ArgMap)
deriving DecidableEq, Repr

/-- `ArgParser::parse`, with the token stream (Rust reads
`std::env::args().skip(1)`) passed explicitly. -/
def ArgParser.parse (p : ArgParser) (tokens : List String) : ParseOutcome :=
  match scanTokens p.args [] tokens with
  | ScanOutcome.helpExit => ParseOutcome.helpExit
  | ScanOutcome.errorExit msg => ParseOutcome.errorExit msg
  | ScanOutcome.done args m =>
    match postScan args p.groups with
    | some msg => ParseOutcome.errorExit msg
    | none => ParseOutcome.ok ⟨m⟩

/-- `ArgMap::get::<i32>`: parse the stored string with `i32::from_str`,
with the source's two error messages. -/
def ArgMap.getI32 (m : ArgMap) (name : String) : Except String Int :=
  match m.get_raw name with
  | some value =>
    match parseI32 value with
    | some n => Except.ok n
    | none => Except.error ("Cannot convert value `" ++ value ++ "` into type `i32`")
  | none => Except.error ("Inexistent `" ++ name ++ "` value requested.")

/-! ## Helper lemmas shared by the claim theorems -/

theorem find?_filter_ne (m : List (String × String)) (k k2 : String) (h : k2 ≠ k) :
    (m.filter (fun p => p.1 != k)).find? (fun p => p.1 == k2) =
      m.find? (fun p => p.1 == k2) := by
  induction m with
  | nil => rfl
  | cons p rest ih =>
    by_cases hp : p.1 = k
    · have hf : (p.1 != k) = false := by simp [hp]
      have h2 : (p.1 == k2) = false := by
        refine beq_eq_false_iff_ne.mpr ?_
        rw [hp]
        exact fun e => h e.symm
      rw [List.filter_cons, hf]
      simp only [Bool.false_eq_true, if_false, List.find?_cons, h2, ih]
    · have hf : (p.1 != k) = true := by simp [hp]
      rw [List.filter_cons, hf, if_pos rfl]
      by_cases hp2 : p.1 = k2
      · have h3 : (p.1 == k2) = true := by simp [hp2]
        rw [List.find?_cons, h3, List.find?_cons, h3]
      · have h3 : (p.1 == k2) = false := by simp [hp2]
        rw [List.find?_cons, h3, List.find?_cons, h3, ih]

theorem mapGet_insert_self (m : List (String × String)) (k v : String) :
    mapGet (mapInsert m k v) k = some v := by
  induction m with
  | nil => simp [mapGet, mapInsert]
  | cons p rest ih =>
    by_cases hp : p.1 = k
    · have hf : (p.1 != k) = false := by simp [hp]
      unfold mapGet mapInsert at ih ⊢
      rw [List.filter_cons, hf]
      simp only [Bool.false_eq_true, if_false]
      exact ih
    · have hf : (p.1 != k) = true := by simp [hp]
      have h3 : (p.1 == k) = false := by simp [hp]
      unfold mapGet mapInsert at ih ⊢
      rw [List.filter_cons, hf, if_pos rfl, List.cons_append, List.find?_cons, h3]
      exact ih

theorem mapGet_insert_ne (m : List (String × String)) (k v k2 : String) (h : k2 ≠ k) :
    mapGet (mapInsert m k v) k2 = mapGet m k2 := by
  unfold mapGet mapInsert
  rw [List.find?_append, find?_filter_ne m k k2 h]
  have h1 : ((k, v).1 == k2) = false := by
    refine beq_eq_false_iff_ne.mpr ?_
    exact fun e => h e.symm
  cases hf : m.find? (fun p => p.1 == k2) with
  | none => simp [List.find?_cons, h1, Option.orElse]
  | some q => simp [Option.orElse]

theorem matchesTok_mark (s : String) (a : Arg) :
    matchesTok s { a with scanned := true } = matchesTok s a := rfl

theorem findArg?_markScanned (args : List Arg) (nm s : String) :
    (findArg? (markScanned args nm) s).map Arg.long_name =
      (findArg? args s).map Arg.long_name := by
  induction args with
  | nil => rfl
  | cons a rest ih =>
    by_cases hnm : matchesTok nm a
    · by_cases hs : matchesTok s a
      · simp [markScanned, hnm, findArg?, List.find?, matchesTok_mark, hs]
      · simp [markScanned, hnm, findArg?, List.find?, matchesTok_mark, hs]
    · by_cases hs : matchesTok s a
      · simp [markScanned, hnm, findArg?, List.find?, hs]
      · simpa [markScanned, hnm, findArg?, List.find?, hs] using ih

theorem scan_step_boolean (args : List Arg) (m : List (String × String))
    (t : String) (rest : List String) (a : Arg)
    (hh : (t == "--help" || t == "-h") = false)
    (hd : startsWithDash t = true)
    (hf : findArg? args (stripDashes t) = some a)
    (hk : a.kind = ArgKind.boolean) :
    scanTokens args m (t :: rest) =
      scanTokens (markScanned args (stripDashes t)) (mapInsert m a.long_name "true") rest := by
  rw [scanTokens]
  simp only [hh, Bool.false_eq_true, if_false, hd, if_true, hf, hk]

theorem scan_step_string_ok (args : List Arg) (m : List (String × String))
    (t v : String) (rest : List String) (a : Arg)
    (hh : (t == "--help" || t == "-h") = false)
    (hd : startsWithDash t = true)
    (hf : findArg? args (stripDashes t) = some a)
    (hk : a.kind = ArgKind.string)
    (hv : startsWithDash v = false) :
    scanTokens args m (t :: v :: rest) =
      scanTokens (markScanned args (stripDashes t)) (mapInsert m a.long_name v) rest := by
  rw [scanTokens]
  simp only [hh, Bool.false_eq_true, if_false, hd, if_true, hf, hk, hv]

theorem scan_step_string_dash (args : List Arg) (m : List (String × String))
    (t v : String) (rest : List String) (a : Arg)
    (hh : (t == "--help" || t == "-h") = false)
    (hd : startsWithDash t = true)
    (hf : findArg? args (stripDashes t) = some a)
    (hk : a.kind = ArgKind.string)
    (hv : startsWithDash v = true) :
    scanTokens args m (t :: v :: rest) =
      ScanOutcome.errorExit
        ("Unexpected value `" ++ v ++ "` for argument: --" ++ stripDashes t) := by
  rw [scanTokens]
  simp only [hh, Bool.false_eq_true, if_false, hd, if_true, hf, hk, hv]

theorem scan_step_integer_ok (args : List Arg) (m : List (String × String))
    (t v : String) (rest : List String) (a : Arg)
    (hh : (t == "--help" || t == "-h") = false)
    (hd : startsWithDash t = true)
    (hf : findArg? args (stripDashes t) = some a)
    (hk : a.kind = ArgKind.integer)
    (hv : (parseI32 v).isSome = true) :
    scanTokens args m (t :: v :: rest) =
      scanTokens (markScanned args (stripDashes t)) (mapInsert m a.long_name v) rest := by
  rw [scanTokens]
  simp only [hh, Bool.false_eq_true, if_false, hd, if_true, hf, hk, hv]

theorem scan_step_integer_bad (args : List Arg) (m : List (String × String))
    (t v : String) (rest : List String) (a : Arg)
    (hh : (t == "--help" || t == "-h") = false)
    (hd : startsWithDash t = true)
    (hf : findArg? args (stripDashes t) = some a)
    (hk : a.kind = ArgKind.integer)
    (hv : parseI32 v = none) :
    scanTokens args m (t :: v :: rest) =
      ScanOutcome.errorExit ("Cannot convert `" ++ v ++ "` into integer.") := by
  rw [scanTokens]
  simp only [hh, Bool.false_eq_true, if_false, hd, if_true, hf, hk, hv, Option.isSome_none]

theorem scan_step_float_ok (args : List Arg) (m : List (String × String))
    (t v : String) (rest : List String) (a : Arg)
    (hh : (t == "--help" || t == "-h") = false)
    (hd : startsWithDash t = true)
    (hf : findArg? args (stripDashes t) = some a)
    (hk : a.kind = ArgKind.float)
    (hv : parseF32Ok v = true) :
    scanTokens args m (t :: v :: rest) =
      scanTokens (markScanned args (stripDashes t)) (mapInsert m a.long_name v) rest := by
  rw [scanTokens]
  simp only [hh, Bool.false_eq_true, if_false, hd, if_true, hf, hk, hv]

theorem scan_step_float_bad (args : List Arg) (m : List (String × String))
    (t v : String) (rest : List String) (a : Arg)
    (hh : (t == "--help" || t == "-h") = false)
    (hd : startsWithDash t = true)
    (hf : findArg? args (stripDashes t) = some a)
    (hk : a.kind = ArgKind.float)
    (hv : parseF32Ok v = false) :
    scanTokens args m (t :: v :: rest) =
      ScanOutcome.errorExit ("Cannot convert `" ++ v ++ "` into floating point number.") := by
  rw [scanTokens]
  simp only [hh, Bool.false_eq_true, if_false, hd, if_true, hf, hk, hv]


theorem noMatch_mark (args : List Arg) (nm s name : String)
    (H : ∀ a, findArg? args s = some a → a.long_name ≠ name) :
    ∀ a, findArg? (markScanned args nm) s = some a → a.long_name ≠ name := by
  intro a ha
  have hmap := findArg?_markScanned args nm s
  rw [ha] at hmap
  cases hfa : findArg? args s with
  | none =>
    rw [hfa] at hmap
    simp at hmap
  | some a0 =>
    rw [hfa] at hmap
    simp only [Option.map_some'] at hmap
    have heq : a.long_name = a0.long_name := by injection hmap
    rw [heq]
    exact H a0 hfa

theorem scan_preserves_unmatched (name : String) (args : List Arg)
    (m : List (String × String)) (toks : List String) :
    ∀ (args2 : List Arg) (m2 : List (String × String)),
      scanTokens args m toks = ScanOutcome.done args2 m2 →
      (∀ t ∈ toks, startsWithDash t = true →
        ∀ a, findArg? args (stripDashes t) = some a → a.long_name ≠ name) →
      mapGet m2 name = mapGet m name := by
  induction args, m, toks using scanTokens.induct with
  | case1 args m =>
    intro args2 m2 h _
    rw [scanTokens] at h
    cases h
    rfl
  | case2 args m tok rest hh =>
    intro args2 m2 h _
    rw [scanTokens] at h
    rw [if_pos hh] at h
    exact ScanOutcome.noConfusion h
  | case3 args m tok hh hd an inner hfa hk value rest2 hv =>
    intro args2 m2 h _
    have hh2 : (tok == "--help" || tok == "-h") = false := by simpa using hh
    have hfa2 : findArg? args (stripDashes tok) = some inner := hfa
    rw [scan_step_string_dash args m tok value rest2 inner hh2 hd hfa2 hk hv] at h
    exact ScanOutcome.noConfusion h
  | case4 args m tok hh hd an inner hfa hk value rest2 hv ih =>
    intro args2 m2 h H
    have hh2 : (tok == "--help" || tok == "-h") = false := by simpa using hh
    have hfa2 : findArg? args (stripDashes tok) = some inner := hfa
    have hv2 : startsWithDash value = false := by simpa using hv
    rw [scan_step_string_ok args m tok value rest2 inner hh2 hd hfa2 hk hv2] at h
    have hnn : name ≠ inner.long_name := Ne.symm (H tok (by simp) hd inner hfa2)
    have Hm : ∀ t ∈ rest2, startsWithDash t = true →
        ∀ a, findArg? (markScanned args (stripDashes tok)) (stripDashes t) = some a →
          a.long_name ≠ name := by
      intro t ht hdt
      exact noMatch_mark args (stripDashes tok) (stripDashes t) name
        (fun a0 ha0 => H t (by simp [ht]) hdt a0 ha0)
    rw [ih args2 m2 h Hm, mapGet_insert_ne m inner.long_name value name hnn]
  | case5 args m tok hh hd an inner hfa hk =>
    intro args2 m2 h _
    have hh2 : (tok == "--help" || tok == "-h") = false := by simpa using hh
    have hfa2 : findArg? args (stripDashes tok) = some inner := hfa
    rw [scanTokens] at h
    simp only [hh2, Bool.false_eq_true, if_false, hd, if_true, hfa2, hk] at h
    exact ScanOutcome.noConfusion h
  | case6 args m tok hh hd an inner hfa hk value rest2 hv ih =>
    intro args2 m2 h H
    have hh2 : (tok == "--help" || tok == "-h") = false := by simpa using hh
    have hfa2 : findArg? args (stripDashes tok) = some inner := hfa
    rw [scan_step_integer_ok args m tok value rest2 inner hh2 hd hfa2 hk hv] at h
    have hnn : name ≠ inner.long_name := Ne.symm (H tok (by simp) hd inner hfa2)
    have Hm : ∀ t ∈ rest2, startsWithDash t = true →
        ∀ a, findArg? (markScanned args (stripDashes tok)) (stripDashes t) = some a →
          a.long_name ≠ name := by
      intro t ht hdt
      exact noMatch_mark args (stripDashes tok) (stripDashes t) name
        (fun a0 ha0 => H t (by simp [ht]) hdt a0 ha0)
    rw [ih args2 m2 h Hm, mapGet_insert_ne m inner.long_name value name hnn]
  | case7 args m tok hh hd an inner hfa hk value rest2 hv =>
    intro args2 m2 h _
    have hh2 : (tok == "--help" || tok == "-h") = false := by simpa using hh
    have hfa2 : findArg? args (stripDashes tok) = some inner := hfa
    have hv2 : parseI32 value = none := Option.not_isSome_iff_eq_none.mp hv
    rw [scan_step_integer_bad args m tok value rest2 inner hh2 hd hfa2 hk hv2] at h
    exact ScanOutcome.noConfusion h
  | case8 args m tok hh hd an inner hfa hk =>
    intro args2 m2 h _
    have hh2 : (tok == "--help" || tok == "-h") = false := by simpa using hh
    have hfa2 : findArg? args (stripDashes tok) = some inner := hfa
    rw [scanTokens] at h
    simp only [hh2, Bool.false_eq_true, if_false, hd, if_true, hfa2, hk] at h
    exact ScanOutcome.noConfusion h
  | case9 args m tok hh hd an inner hfa hk value rest2 hv ih =>
    intro args2 m2 h H
    have hh2 : (tok == "--help" || tok == "-h") = false := by simpa using hh
    have hfa2 : findArg? args (stripDashes tok) = some inner := hfa
    rw [scan_step_float_ok args m tok value rest2 inner hh2 hd hfa2 hk hv] at h
    have hnn : name ≠ inner.long_name := Ne.symm (H tok (by simp) hd inner hfa2)
    have Hm : ∀ t ∈ rest2, startsWithDash t = true →
        ∀ a, findArg? (markScanned args (stripDashes tok)) (stripDashes t) = some a →
          a.long_name ≠ name := by
      intro t ht hdt
      exact noMatch_mark args (stripDashes tok) (stripDashes t) name
        (fun a0 ha0 => H t (by simp [ht]) hdt a0 ha0)
    rw [ih args2 m2 h Hm, mapGet_insert_ne m inner.long_name value name hnn]
  | case10 args m tok hh hd an inner hfa hk value rest2 hv =>
    intro args2 m2 h _
    have hh2 : (tok == "--help" || tok == "-h") = false := by simpa using hh
    have hfa2 : findArg? args (stripDashes tok) = some inner := hfa
    have hv2 : parseF32Ok value = false := by simpa using hv
    rw [scan_step_float_bad args m tok value rest2 inner hh2 hd hfa2 hk hv2] at h
    exact ScanOutcome.noConfusion h
  | case11 args m tok hh hd an inner hfa hk =>
    intro args2 m2 h _
    have hh2 : (tok == "--help" || tok == "-h") = false := by simpa using hh
    have hfa2 : findArg? args (stripDashes tok) = some inner := hfa
    rw [scanTokens] at h
    simp only [hh2, Bool.false_eq_true, if_false, hd, if_true, hfa2, hk] at h
    exact ScanOutcome.noConfusion h
  | case12 args m tok rest hh hd an inner hfa hk ih =>
    intro args2 m2 h H
    have hh2 : (tok == "--help" || tok == "-h") = false := by simpa using hh
    have hfa2 : findArg? args (stripDashes tok) = some inner := hfa
    rw [scan_step_boolean args m tok rest inner hh2 hd hfa2 hk] at h
    have hnn : name ≠ inner.long_name := Ne.symm (H tok (by simp) hd inner hfa2)
    have Hm : ∀ t ∈ rest, startsWithDash t = true →
        ∀ a, findArg? (markScanned args (stripDashes tok)) (stripDashes t) = some a →
          a.long_name ≠ name := by
      intro t ht hdt
      exact noMatch_mark args (stripDashes tok) (stripDashes t) name
        (fun a0 ha0 => H t (by simp [ht]) hdt a0 ha0)
    rw [ih args2 m2 h Hm]
    exact mapGet_insert_ne m inner.long_name "true" name hnn
  | case13 args m tok rest hh hd an hfa =>
    intro args2 m2 h _
    have hh2 : (tok == "--help" || tok == "-h") = false := by simpa using hh
    have hfa2 : findArg? args (stripDashes tok) = none := hfa
    rw [scanTokens] at h
    simp only [hh2, Bool.false_eq_true, if_false, hd, if_true, hfa2] at h
    exact ScanOutcome.noConfusion h
  | case14 args m tok rest hh hd =>
    intro args2 m2 h _
    have hh2 : (tok == "--help" || tok == "-h") = false := by simpa using hh
    have hd2 : startsWithDash tok = false := by simpa using hd
    rw [scanTokens] at h
    simp only [hh2, Bool.false_eq_true, if_false, hd2] at h
    exact ScanOutcome.noConfusion h

/-! ## Concrete engines used by the claim theorems -/

/-- An engine with one required String spec `--path` / `-f`. -/
def pathEngine : ArgParser :=
  (ArgParser.new "prog" "finds things").arg (Arg.string "path" (some 'f') true "the path")

/-- An engine with one optional Integer spec `--count` / `-c`. -/
def countEngine : ArgParser :=
  (ArgParser.new "prog" "counts things").arg (Arg.integer "count" (some 'c') false "desc")

/-- An engine with one optional Float spec `--scale` / `-s`. -/
def scaleEngine : ArgParser :=
  (ArgParser.new "prog" "scales things").arg (Arg.float "scale" (some 's') false "desc")

/-! ## The claims -/

/-- C1 (amended): a token `"--help"` or `"-h"` that the scanning loop
examines as its next token — at any position, from any intermediate scan
state — immediately yields the help page and successful termination
(`exit(0)`), with no scan-time or post-scan diagnostic; in particular a
stream starting with such a token always parses to `helpExit`.  (The
original claim's strengthening to a help token standing in a value
position of a preceding non-boolean option is refuted by
`C1_help_value_counterexample`: such a token is consumed by the inner
`arguments.next()` and never reaches the loop-head help check.) -/
theorem C1_help_token_scan_head (args : List Arg) (m : List (String × String))
    (t : String) (rest : List String) (h : t = "--help" ∨ t = "-h") :
    scanTokens args m (t :: rest) = ScanOutcome.helpExit ∧
    ∀ p : ArgParser, ArgParser.parse p (t :: rest) = ParseOutcome.helpExit := by
  have hb : (t == "--help" || t == "-h") = true := by
    cases h with
    | inl h => simp [h]
    | inr h => simp [h]
  constructor
  · rw [scanTokens, if_pos hb]
  · intro p
    unfold ArgParser.parse
    rw [scanTokens, if_pos hb]

/-- Witness for C1 (amended), at `t = "--help"` with one-token input. -/
theorem C1_help_token_scan_head_witness :
    ("--help" = "--help" ∨ "--help" = "-h") ∧
    (scanTokens [] [] ["--help"] = ScanOutcome.helpExit ∧
      ∀ p : ArgParser, ArgParser.parse p ["--help"] = ParseOutcome.helpExit) :=
  ⟨Or.inl rfl, C1_help_token_scan_head [] [] "--help" [] (Or.inl rfl)⟩

/-- Counterexample to C1 as stated: the stream `["--path", "--help"]`
contains the token `"--help"`, yet with a String spec `--path` registered
the run terminates with the scan-time diagnostic
`Unexpected value (exit 1)`, not with the help page and success status:
the help token was consumed as `--path`'s value. -/
theorem C1_help_value_counterexample :
    "--help" ∈ ["--path", "--help"] ∧
    ArgParser.parse pathEngine ["--path", "--help"] =
      ParseOutcome.errorExit "Unexpected value `--help` for argument: --path" ∧
    ArgParser.parse pathEngine ["--path", "--help"] ≠ ParseOutcome.helpExit := by
  refine ⟨by decide, by decide, by decide⟩

theorem arg_groups_eq (p : ArgParser) (a : Arg) : (p.arg a).groups = p.groups := by
  unfold ArgParser.arg
  split <;> rfl

theorem arg_executable_eq (p : ArgParser) (a : Arg) :
    (p.arg a).executable = p.executable := by
  unfold ArgParser.arg
  split <;> rfl

theorem arg_description_eq (p : ArgParser) (a : Arg) :
    (p.arg a).description = p.description := by
  unfold ArgParser.arg
  split <;> rfl

theorem registerAll_args (p : ArgParser) (specs : List Arg) :
    (registerAll p specs).args =
      p.args ++ specs.filter
        (fun a => !(a.long_name == "help" || a.short_name == some 'h')) := by
  induction specs generalizing p with
  | nil => simp [registerAll]
  | cons a rest ih =>
    show (registerAll (p.arg a) rest).args = _
    rw [ih (p.arg a)]
    by_cases hc : a.long_name ≠ "help" ∧ a.short_name ≠ some 'h'
    · have hf : (!(a.long_name == "help" || a.short_name == some 'h')) = true := by
        simp [hc.1, hc.2]
      rw [List.filter_cons, hf, if_pos rfl, ArgParser.arg, if_pos hc]
      simp
    · have hf : (!(a.long_name == "help" || a.short_name == some 'h')) = false := by
        rcases not_and_or.mp hc with h | h
        · simp [not_ne_iff.mp h]
        · simp [not_ne_iff.mp h]
      rw [List.filter_cons, hf, ArgParser.arg, if_neg hc]
      simp

/-- C2: chained `ArgParser::arg` registration never adds a spec named
`"help"` or aliased `'h'`: such specs are silently dropped with no
observable effect on the engine, and every other spec is appended in call
order (the resulting spec list is the original list followed by the
registered specs filtered of the reserved ones, in order). -/
theorem C2_help_registration_inert (p : ArgParser) (specs : List Arg) :
    (registerAll p specs).args =
      p.args ++ specs.filter
        (fun a => !(a.long_name == "help" || a.short_name == some 'h')) ∧
    (registerAll p specs).groups = p.groups ∧
    (registerAll p specs).executable = p.executable ∧
    (registerAll p specs).description = p.description ∧
    ∀ a ∈ (registerAll p specs).args,
      a ∈ p.args ∨ (a.long_name ≠ "help" ∧ a.short_name ≠ some 'h') := by
  refine ⟨registerAll_args p specs, ?_, ?_, ?_, ?_⟩
  · induction specs generalizing p with
    | nil => rfl
    | cons a rest ih => rw [registerAll, List.foldl_cons, ← registerAll, ih (p.arg a),
        arg_groups_eq]
  · induction specs generalizing p with
    | nil => rfl
    | cons a rest ih => rw [registerAll, List.foldl_cons, ← registerAll, ih (p.arg a),
        arg_executable_eq]
  · induction specs generalizing p with
    | nil => rfl
    | cons a rest ih => rw [registerAll, List.foldl_cons, ← registerAll, ih (p.arg a),
        arg_description_eq]
  · intro a ha
    rw [registerAll_args p specs] at ha
    rcases List.mem_append.mp ha with h | h
    · exact Or.inl h
    · right
      have hp := List.mem_filter.mp h
      have h2 := hp.2
      simp only [Bool.not_eq_true', Bool.or_eq_false_iff, beq_eq_false_iff_ne] at h2
      exact h2

theorem parse_ok_unmatched_absent (p : ArgParser) (toks : List String) (m : ArgMap)
    (name : String) (hp : ArgParser.parse p toks = ParseOutcome.ok m)
    (H : ∀ t ∈ toks, startsWithDash t = true →
      ∀ a, findArg? p.args (stripDashes t) = some a → a.long_name ≠ name) :
    m.has_arg name = false := by
  unfold ArgParser.parse at hp
  cases hs : scanTokens p.args [] toks with
  | helpExit =>
    rw [hs] at hp
    exact ParseOutcome.noConfusion hp
  | errorExit msg =>
    rw [hs] at hp
    exact ParseOutcome.noConfusion hp
  | done args2 m2 =>
    rw [hs] at hp
    have hget := scan_preserves_unmatched name p.args [] toks args2 m2 hs H
    have hp2 : (match postScan args2 p.groups with
        | some msg => ParseOutcome.errorExit msg
        | none => ParseOutcome.ok ⟨m2⟩) = ParseOutcome.ok m := hp
    cases hps : postScan args2 p.groups with
    | some msg =>
      rw [hps] at hp2
      exact ParseOutcome.noConfusion hp2
    | none =>
      rw [hps] at hp2
      have hm : ArgMap.mk m2 = m := by injection hp2
      rw [← hm]
      unfold ArgMap.has_arg
      show (mapGet m2 name).isSome = false
      rw [hget]
      rfl

/-- C3: boolean-flag semantics.  (i) Whenever the scanning loop matches an
option token `t` to a Boolean spec `a` — by name or alias, from any scan
state — it consumes no value token (the continuation scans exactly `rest`,
the stream after `t`), marks the spec observed (`markScanned`), and stores
the string `"true"` under the spec's name, so the mapping then yields
`"true"` for it.  (ii) If no token of the stream matches any spec carrying
the given name, a successful `parse` yields a mapping on which `has_arg`
returns `false` for that name.  (iii) A concrete run: a boolean `-V` flag
present sets `"verbose"` to `"true"`; with the flag absent `has_arg
"verbose"` is `false`. -/
theorem C3_boolean_flag :
    (∀ (args : List Arg) (m : List (String × String)) (t : String)
        (rest : List String) (a : Arg),
      (t == "--help" || t == "-h") = false →
      startsWithDash t = true →
      findArg? args (stripDashes t) = some a →
      a.kind = ArgKind.boolean →
      scanTokens args m (t :: rest) =
        scanTokens (markScanned args (stripDashes t)) (mapInsert m a.long_name "true") rest ∧
      mapGet (mapInsert m a.long_name "true") a.long_name = some "true") ∧
    (∀ (p : ArgParser) (toks : List String) (m : ArgMap) (name : String),
      ArgParser.parse p toks = ParseOutcome.ok m →
      (∀ t ∈ toks, startsWithDash t = true →
        ∀ a, findArg? p.args (stripDashes t) = some a → a.long_name ≠ name) →
      m.has_arg name = false) ∧
    (ArgParser.parse
        ((ArgParser.new "prog" "d").arg (Arg.boolean "verbose" (some 'V') "loud"))
        ["-V"] = ParseOutcome.ok ⟨[("verbose", "true")]⟩ ∧
      (ArgMap.mk [("verbose", "true")]).get_raw "verbose" = some "true" ∧
      ArgParser.parse
        ((ArgParser.new "prog" "d").arg (Arg.boolean "verbose" (some 'V') "loud"))
        [] = ParseOutcome.ok ⟨[]⟩ ∧
      (ArgMap.mk []).has_arg "verbose" = false) := by
  refine ⟨?_, parse_ok_unmatched_absent, by decide, by decide, by decide, by decide⟩
  intro args m t rest a hh hd hf hk
  exact ⟨scan_step_boolean args m t rest a hh hd hf hk,
    mapGet_insert_self m a.long_name "true"⟩

/-- C4: Integer / Float value conversion at match time, from any scan
state.  For a matched Integer spec: if the next token fails
`i32::from_str` the scan stops at once with the conversion diagnostic
(exit 1) and nothing is stored; if it parses, the raw token string itself
is stored under the spec's name.  Symmetrically for Float specs with
`f32::from_str`.  Concretely: `-c xyz` terminates with
`` Cannot convert `xyz` into integer. `` and `-s abc` with the
floating-point variant, while `-c 7` stores the raw string `"7"`. -/
theorem C4_numeric_conversion :
    (∀ (args : List Arg) (m : List (String × String)) (t v : String)
        (rest : List String) (a : Arg),
      (t == "--help" || t == "-h") = false →
      startsWithDash t = true →
      findArg? args (stripDashes t) = some a →
      (a.kind = ArgKind.integer →
        (parseI32 v = none →
          scanTokens args m (t :: v :: rest) =
            ScanOutcome.errorExit ("Cannot convert `" ++ v ++ "` into integer.")) ∧
        ((parseI32 v).isSome = true →
          scanTokens args m (t :: v :: rest) =
            scanTokens (markScanned args (stripDashes t)) (mapInsert m a.long_name v) rest ∧
          mapGet (mapInsert m a.long_name v) a.long_name = some v)) ∧
      (a.kind = ArgKind.float →
        (parseF32Ok v = false →
          scanTokens args m (t :: v :: rest) =
            ScanOutcome.errorExit
              ("Cannot convert `" ++ v ++ "` into floating point number.")) ∧
        (parseF32Ok v = true →
          scanTokens args m (t :: v :: rest) =
            scanTokens (markScanned args (stripDashes t)) (mapInsert m a.long_name v) rest ∧
          mapGet (mapInsert m a.long_name v) a.long_name = some v))) ∧
    (ArgParser.parse countEngine ["-c", "xyz"] =
        ParseOutcome.errorExit "Cannot convert `xyz` into integer." ∧
      ArgParser.parse scaleEngine ["-s", "abc"] =
        ParseOutcome.errorExit "Cannot convert `abc` into floating point number." ∧
      ArgParser.parse countEngine ["-c", "7"] = ParseOutcome.ok ⟨[("count", "7")]⟩) := by
  refine ⟨?_, by decide, by decide, by decide⟩
  intro args m t v rest a hh hd hf
  constructor
  · intro hk
    constructor
    · intro hv
      exact scan_step_integer_bad args m t v rest a hh hd hf hk hv
    · intro hv
      exact ⟨scan_step_integer_ok args m t v rest a hh hd hf hk hv,
        mapGet_insert_self m a.long_name v⟩
  · intro hk
    constructor
    · intro hv
      exact scan_step_float_bad args m t v rest a hh hd hf hk hv
    · intro hv
      exact ⟨scan_step_float_ok args m t v rest a hh hd hf hk hv,
        mapGet_insert_self m a.long_name v⟩

/-- C5: the post-scan check of an Exclusive group, where `useCount` is the
number of the group's member specs marked observed after the scan.  If the
group is required and the count differs from 1, the check yields a
diagnostic (`isSome`, which `parse` turns into message + `exit(1)`); if it
is not required and the count exceeds 1, likewise; in every other case
the check passes (`none`). -/
theorem C5_exclusive_check (args : List Arg) (g : ArgGroup)
    (h : g.kind = GroupKind.exclusive) :
    (g.required = true → useCount args g.args ≠ 1 → (checkGroup args g).isSome = true) ∧
    (g.required = false → useCount args g.args > 1 → (checkGroup args g).isSome = true) ∧
    (g.required = true → useCount args g.args = 1 → checkGroup args g = none) ∧
    (g.required = false → useCount args g.args ≤ 1 → checkGroup args g = none) := by
  refine ⟨?_, ?_, ?_, ?_⟩
  · intro hr hne
    unfold checkGroup
    rw [hr, if_pos rfl, h]
    by_cases h1 : useCount args g.args > 1
    · simp [h1]
    · have h0 : useCount args g.args = 0 := by omega
      simp [h1, h0]
  · intro hr h1
    unfold checkGroup
    rw [hr, h]
    simp [h1]
  · intro hr h1
    unfold checkGroup
    rw [hr, if_pos rfl, h, h1]
    simp
  · intro hr h1
    unfold checkGroup
    rw [hr, h]
    have h2 : ¬useCount args g.args > 1 := by omega
    simp [h2]

/-- Witness for C5, at the required exclusive group `⟨"g", true, ["a"]⟩`
over an empty spec list. -/
theorem C5_exclusive_check_witness :
    (ArgGroup.exclusive "g" true ["a"]).kind = GroupKind.exclusive ∧
    (((ArgGroup.exclusive "g" true ["a"]).required = true →
        useCount [] (ArgGroup.exclusive "g" true ["a"]).args ≠ 1 →
        (checkGroup [] (ArgGroup.exclusive "g" true ["a"])).isSome = true) ∧
      ((ArgGroup.exclusive "g" true ["a"]).required = false →
        useCount [] (ArgGroup.exclusive "g" true ["a"]).args > 1 →
        (checkGroup [] (ArgGroup.exclusive "g" true ["a"])).isSome = true) ∧
      ((ArgGroup.exclusive "g" true ["a"]).required = true →
        useCount [] (ArgGroup.exclusive "g" true ["a"]).args = 1 →
        checkGroup [] (ArgGroup.exclusive "g" true ["a"]) = none) ∧
      ((ArgGroup.exclusive "g" true ["a"]).required = false →
        useCount [] (ArgGroup.exclusive "g" true ["a"]).args ≤ 1 →
        checkGroup [] (ArgGroup.exclusive "g" true ["a"]) = none)) :=
  ⟨rfl, C5_exclusive_check [] (ArgGroup.exclusive "g" true ["a"]) rfl⟩

/-- C6: the post-scan check of a Conditional (`OnlyWhen`) group, with `m`
the observed member count and `p` the observed parent count.  Required and
`m = 0` yields a diagnostic; `m > 0` with `p = 0` yields a diagnostic
whether or not the group is required; not required with `m = 0` passes. -/
theorem C6_conditional_check (args : List Arg) (g : ArgGroup)
    (h : g.kind = GroupKind.onlyWhen) :
    (g.required = true → useCount args g.args = 0 → (checkGroup args g).isSome = true) ∧
    (useCount args g.args > 0 → useCount args g.parents = 0 →
      (checkGroup args g).isSome = true) ∧
    (g.required = false → useCount args g.args = 0 → checkGroup args g = none) := by
  refine ⟨?_, ?_, ?_⟩
  · intro hr h0
    unfold checkGroup
    rw [hr, if_pos rfl, h, h0]
    simp
  · intro hm hp
    unfold checkGroup
    rw [h]
    cases hr : g.required with
    | true =>
      have h0 : (useCount args g.args == 0) = false := by
        simp
        omega
      simp only [if_pos rfl, h0, Bool.false_eq_true, if_false, hp]
      simp
    | false =>
      simp [hm, hp]
  · intro hr h0
    unfold checkGroup
    rw [hr, h]
    simp [h0]

/-- Witness for C6, at the non-required conditional group
`⟨"g", false, ["child"], ["parent"]⟩` over an empty spec list. -/
theorem C6_conditional_check_witness :
    (ArgGroup.allow_when "g" false ["child"] ["parent"]).kind = GroupKind.onlyWhen ∧
    (((ArgGroup.allow_when "g" false ["child"] ["parent"]).required = true →
        useCount [] (ArgGroup.allow_when "g" false ["child"] ["parent"]).args = 0 →
        (checkGroup [] (ArgGroup.allow_when "g" false ["child"] ["parent"])).isSome = true) ∧
      (useCount [] (ArgGroup.allow_when "g" false ["child"] ["parent"]).args > 0 →
        useCount [] (ArgGroup.allow_when "g" false ["child"] ["parent"]).parents = 0 →
        (checkGroup [] (ArgGroup.allow_when "g" false ["child"] ["parent"])).isSome = true) ∧
      ((ArgGroup.allow_when "g" false ["child"] ["parent"]).required = false →
        useCount [] (ArgGroup.allow_when "g" false ["child"] ["parent"]).args = 0 →
        checkGroup [] (ArgGroup.allow_when "g" false ["child"] ["parent"]) = none)) :=
  ⟨rfl, C6_conditional_check [] (ArgGroup.allow_when "g" false ["child"] ["parent"]) rfl⟩

theorem firstGroupError_none (args : List Arg) (gs : List ArgGroup)
    (H : ∀ g ∈ gs, checkGroup args g = none) : firstGroupError args gs = none := by
  induction gs with
  | nil => rfl
  | cons g rest ih =>
    unfold firstGroupError
    rw [H g (by simp)]
    exact ih (fun g2 hg2 => H g2 (by simp [hg2]))

theorem find?_required_append (args1 args2 : List Arg) (a : Arg)
    (H1 : ∀ b ∈ args1, (b.required && !b.scanned) = false)
    (ha : (a.required && !a.scanned) = true) :
    (args1 ++ a :: args2).find? (fun b => b.required && !b.scanned) = some a := by
  induction args1 with
  | nil =>
    rw [List.nil_append, List.find?_cons, ha]
  | cons b rest ih =>
    have hb := H1 b (by simp)
    rw [List.cons_append, List.find?_cons, hb]
    exact ih (fun c hc => H1 c (by simp [hc]))

/-- C7: post-scan validation fires exactly the first failing check and
nothing else.  (i) If every group before `g` passes and `g`'s check fails
with diagnostic `msg`, the whole validation yields exactly `msg` — later
groups and all required-spec checks are never consulted.  (ii) If every
group passes, the diagnostic is the one of the first spec (in declaration
order) with `required` set and `scanned` unset.  (iii) After a completed
scan, `parse` turns `some msg` into the single outcome `errorExit msg`
(one diagnostic, `exit(1)`) and `none` into the success mapping — a run
never reports more than one validation error. -/
theorem C7_first_failure :
    (∀ (args : List Arg) (gs1 gs2 : List ArgGroup) (g : ArgGroup) (msg : String),
      (∀ g2 ∈ gs1, checkGroup args g2 = none) →
      checkGroup args g = some msg →
      postScan args (gs1 ++ g :: gs2) = some msg) ∧
    (∀ (args1 args2 : List Arg) (a : Arg) (gs : List ArgGroup),
      (∀ g ∈ gs, checkGroup (args1 ++ a :: args2) g = none) →
      (∀ b ∈ args1, (b.required && !b.scanned) = false) →
      (a.required && !a.scanned) = true →
      postScan (args1 ++ a :: args2) gs =
        some ("Missing required argument: `" ++ a.long_name ++ "`")) ∧
    (∀ (p : ArgParser) (toks : List String) (args2 : List Arg)
        (m : List (String × String)),
      scanTokens p.args [] toks = ScanOutcome.done args2 m →
      (∀ msg, postScan args2 p.groups = some msg →
        ArgParser.parse p toks = ParseOutcome.errorExit msg) ∧
      (postScan args2 p.groups = none →
        ArgParser.parse p toks = ParseOutcome.ok ⟨m⟩)) := by
  refine ⟨?_, ?_, ?_⟩
  · intro args gs1 gs2 g msg Hpre hg
    unfold postScan
    have : firstGroupError args (gs1 ++ g :: gs2) = some msg := by
      induction gs1 with
      | nil =>
        rw [List.nil_append]
        unfold firstGroupError
        rw [hg]
      | cons g1 rest ih =>
        rw [List.cons_append]
        unfold firstGroupError
        rw [Hpre g1 (by simp)]
        exact ih (fun g2 hg2 => Hpre g2 (by simp [hg2]))
    rw [this]
  · intro args1 args2 a gs Hg H1 ha
    unfold postScan
    rw [firstGroupError_none (args1 ++ a :: args2) gs Hg]
    unfold firstMissingRequired
    rw [find?_required_append args1 args2 a H1 ha]
    rfl
  · intro p toks args2 m hs
    constructor
    · intro msg hps
      unfold ArgParser.parse
      rw [hs]
      show (match postScan args2 p.groups with
        | some msg => ParseOutcome.errorExit msg
        | none => ParseOutcome.ok ⟨m⟩) = ParseOutcome.errorExit msg
      rw [hps]
    · intro hps
      unfold ArgParser.parse
      rw [hs]
      show (match postScan args2 p.groups with
        | some msg => ParseOutcome.errorExit msg
        | none => ParseOutcome.ok ⟨m⟩) = ParseOutcome.ok ⟨m⟩
      rw [hps]

/-- C8: the scan / storage / typed-retrieval round trip of the spec's
testable property: registering `integer("count", Some('c'), false,
"desc")` and scanning `["-c", "5"]` produces a mapping on which
`get::<i32>("count")` yields `5`. -/
theorem C8_integer_roundtrip :
    ∃ m : ArgMap,
      ArgParser.parse
        ((ArgParser.new "prog" "d").arg (Arg.integer "count" (some 'c') false "desc"))
        ["-c", "5"] = ParseOutcome.ok m ∧
      m.getI32 "count" = Except.ok 5 :=
  ⟨⟨[("count", "5")]⟩, by decide, rfl⟩

/-- C9: repeated occurrences of one option raise no diagnostic and the
last occurrence wins.  (i) The scan's handling of a matched option token
is the same from every prior state: even when the spec is already marked
observed and the map already binds its name, a further valid occurrence
just continues the scan (shown here for Integer specs, whose match step
depends on neither `scanned` flags nor map contents).  (ii) `mapInsert`
(the embedding of `HashMap::insert`) makes the new binding shadow any
earlier one.  (iii) A concrete run: `-c 1 --count 2` — the same spec hit
via alias and then via name — succeeds and retains only `"2"`. -/
theorem C9_repetition_last_wins :
    (∀ (args : List Arg) (m : List (String × String)) (t v : String)
        (rest : List String) (a : Arg),
      (t == "--help" || t == "-h") = false →
      startsWithDash t = true →
      findArg? args (stripDashes t) = some a →
      a.kind = ArgKind.integer →
      (parseI32 v).isSome = true →
      scanTokens args m (t :: v :: rest) =
        scanTokens (markScanned args (stripDashes t)) (mapInsert m a.long_name v) rest) ∧
    (∀ (m : List (String × String)) (k v : String),
      mapGet (mapInsert m k v) k = some v) ∧
    ArgParser.parse countEngine ["-c", "1", "--count", "2"] =
      ParseOutcome.ok ⟨[("count", "2")]⟩ := by
  exact ⟨scan_step_integer_ok, mapGet_insert_self, by decide⟩

/-- C10: the leading-dash rejection of value tokens is specific to String
specs.  (i) For a matched String spec a value token starting with `-` is
a fatal `Unexpected value` diagnostic.  (ii)(iii) For a matched Integer or
Float spec the same dash-leading value token is accepted and stored
verbatim whenever it parses as the declared numeric type — there is no
dash check on numeric values.  (iv) `"-5"` parses as `i32` and as `f32`,
and the concrete run `-c -5` stores the raw string `"-5"`. -/
theorem C10_dash_values :
    (∀ (args : List Arg) (m : List (String × String)) (t v : String)
        (rest : List String) (a : Arg),
      (t == "--help" || t == "-h") = false →
      startsWithDash t = true →
      findArg? args (stripDashes t) = some a →
      a.kind = ArgKind.string →
      startsWithDash v = true →
      scanTokens args m (t :: v :: rest) =
        ScanOutcome.errorExit
          ("Unexpected value `" ++ v ++ "` for argument: --" ++ stripDashes t)) ∧
    (∀ (args : List Arg) (m : List (String × String)) (t v : String)
        (rest : List String) (a : Arg),
      (t == "--help" || t == "-h") = false →
      startsWithDash t = true →
      findArg? args (stripDashes t) = some a →
      a.kind = ArgKind.integer →
      startsWithDash v = true →
      (parseI32 v).isSome = true →
      scanTokens args m (t :: v :: rest) =
        scanTokens (markScanned args (stripDashes t)) (mapInsert m a.long_name v) rest) ∧
    (∀ (args : List Arg) (m : List (String × String)) (t v : String)
        (rest : List String) (a : Arg),
      (t == "--help" || t == "-h") = false →
      startsWithDash t = true →
      findArg? args (stripDashes t) = some a →
      a.kind = ArgKind.float →
      startsWithDash v = true →
      parseF32Ok v = true →
      scanTokens args m (t :: v :: rest) =
        scanTokens (markScanned args (stripDashes t)) (mapInsert m a.long_name v) rest) ∧
    parseI32 "-5" = some (-5) ∧
    parseF32Ok "-5" = true ∧
    ArgParser.parse countEngine ["-c", "-5"] = ParseOutcome.ok ⟨[("count", "-5")]⟩ := by
  refine ⟨?_, ?_, ?_, by decide, by decide, by decide⟩
  · intro args m t v rest a hh hd hf hk hv
    exact scan_step_string_dash args m t v rest a hh hd hf hk hv
  · intro args m t v rest a hh hd hf hk _ hv
    exact scan_step_integer_ok args m t v rest a hh hd hf hk hv
  · intro args m t v rest a hh hd hf hk _ hv
    exact scan_step_float_ok args m t v rest a hh hd hf hk hv

end Clarg
